import Mathlib

/-!
Shallow embedding of the Webcamoid NDK media video encoder element
(`videoencoderndkmediaelement.cpp`) and of the recording orchestrator
(`recording.cpp`), together with theorems checking the natural language
specification against it.

Machine integers of the C++ source are modelled as `Nat`/`Int` (none of the
verified computations overflow on the inputs considered); the `double`
arithmetic that the source routes through `qRound64` is modelled as exact
rational rounding.
-/

namespace Webcamoid

/-- Element lifecycle states, mirroring `AkElement::ElementState`
(`ElementStateNull`, `ElementStatePaused`, `ElementStatePlaying`). -/
inductive ElementState where
  | null
  | paused
  | playing
  deriving DecidableEq, Repr

/-- Static codec table from `NDKMediaCodecs::table()`: codec short name paired
with its MIME type.  The terminating sentinel row has an empty MIME type. -/
def ndkCodecsTable : List (String × String) :=
  [("vp8" , "video/x-vnd.on2.vp8"),
   ("vp9" , "video/x-vnd.on2.vp9"),
   ("av1" , "video/av01"),
   ("h264", "video/avc"),
   ("hevc", "video/hevc")]

/-- `NDKMediaCodecs::byName(name)->mimeType`: linear scan of the table; the
sentinel row (empty MIME type) is returned when the name is unknown. -/
def mimeByName (name : String) : String :=
  match ndkCodecsTable.find? (fun e => e.1 = name) with
  | some e => e.2
  | none => ""

/-- Key-frame interval computed in `VideoEncoderNDKMediaElementPrivate::init`:
`qMax(self->gop() * fps.num() / (1000 * fps.den()), 1)`.  C++ `int` division
truncates; on the nonnegative operands used here it is `Nat` division. -/
def gopFrames (gopMillis num den : Nat) : Nat :=
  max (gopMillis * num / (1000 * den)) 1

/-- Key-frame interval as the specification words it:
`round(gopMillis * fps / 1000)`, clamped to at least 1, with exact rational
rounding. -/
def gopFramesSpec (gopMillis num den : Nat) : Int :=
  max (round ((gopMillis * num : ℚ) / (1000 * den))) 1

/-- qRound64 applied to the exact rational `a / b` for nonnegative operands:
`⌊a/b + 1/2⌋` computed with natural division. -/
def rround (a b : Nat) : Nat :=
  (2 * a + b) / (2 * b)

theorem rround_eq_round (a b : Nat) (hb : 0 < b) :
    (rround a b : ℤ) = round ((a : ℚ) / b) := by
  have hb' : (0 : ℚ) < (b : ℚ) := by exact_mod_cast hb
  have h2b : (0 : ℚ) < ((2 * b : Nat) : ℚ) := by
    push_cast
    positivity
  rw [round_eq]
  have harg : (a : ℚ) / b + 1 / 2 = ((2 * a + b : Nat) : ℚ) / ((2 * b : Nat) : ℚ) := by
    push_cast
    field_simp
    ring
  rw [harg]
  rw [← Int.natCast_floor_eq_floor (by positivity)]
  rw [Nat.floor_div_eq_div]
  rfl

/-- One plane of an `AkVideoPacket` as `writeFrame` observes it: the source
line size in bytes (`packet.lineSize(plane)`) and the chroma subsampling
shifts (`packet.widthDiv(plane)`, `packet.heightDiv(plane)`). -/
structure PlaneDesc where
  lineSize : Nat
  widthDiv : Nat
  heightDiv : Nat
  deriving DecidableEq, Repr

/-- The part of an `AkVideoPacket` that `writeFrame` reads: the frame height
(`packet.caps().height()`) and the per-plane descriptors. -/
structure FramePacket where
  height : Nat
  planes : List PlaneDesc
  deriving DecidableEq, Repr

/-- One `memcpy` performed by `writeFrame`: `len` bytes from source row `row`
of plane `plane` to offset `dstOffset` of the hardware input buffer. -/
structure CopyOp where
  dstOffset : Nat
  plane : Nat
  row : Nat
  len : Nat
  deriving DecidableEq, Repr

/-- Per-plane loop of `VideoEncoderNDKMediaElementPrivate::writeFrame`:
`manyPlanes` records `packet.planes() > 1`, `cursor` is the running `oData`
offset, `idx` the current plane index.  For each plane the destination line
size is `stride >> widthDiv` when the packet has several planes and plainly
`stride` otherwise; `min(iLineSize, oLineSize)` bytes of every source row
`y ∈ [0, height)` go to destination row `y >> heightDiv`, and the cursor then
advances by `oLineSize * (sliceHeight >> heightDiv)`. -/
def writeFramePlanes (manyPlanes : Bool) (stride sliceHeight height : Nat) :
    Nat → Nat → List PlaneDesc → List CopyOp
  | _, _, [] => []
  | idx, cursor, p :: rest =>
      let oLineSize := if manyPlanes then stride >>> p.widthDiv else stride
      let lineSize := min p.lineSize oLineSize
      ((List.range height).map fun y =>
        ⟨cursor + (y >>> p.heightDiv) * oLineSize, idx, y, lineSize⟩)
      ++ writeFramePlanes manyPlanes stride sliceHeight height (idx + 1)
           (cursor + oLineSize * (sliceHeight >>> p.heightDiv)) rest

/-- `VideoEncoderNDKMediaElementPrivate::writeFrame`, modelled as the list of
`memcpy` operations it performs on the hardware input buffer.  The slice
height read from the media format is first clamped to at least the frame's
actual height. -/
def writeFrame (pkt : FramePacket) (stride sliceHeight : Nat) : List CopyOp :=
  let sliceH := max sliceHeight pkt.height
  writeFramePlanes (decide (1 < pkt.planes.length)) stride sliceH pkt.height 0 0 pkt.planes

/-- The FrameWriter algorithm as the specification words it: the destination
line size of every plane is `stride` right-shifted by that plane's width
subsampling, unconditionally. -/
def writeFrameSpecPlanes (stride sliceHeight height : Nat) :
    Nat → Nat → List PlaneDesc → List CopyOp
  | _, _, [] => []
  | idx, cursor, p :: rest =>
      let oLineSize := stride >>> p.widthDiv
      let lineSize := min p.lineSize oLineSize
      ((List.range height).map fun y =>
        ⟨cursor + (y >>> p.heightDiv) * oLineSize, idx, y, lineSize⟩)
      ++ writeFrameSpecPlanes stride sliceHeight height (idx + 1)
           (cursor + oLineSize * (sliceHeight >>> p.heightDiv)) rest

/-- Spec-side FrameWriter: clamp the slice height, then lay out every plane
with destination line size `stride >> widthDiv`. -/
def writeFrameSpec (pkt : FramePacket) (stride sliceHeight : Nat) : List CopyOp :=
  let sliceH := max sliceHeight pkt.height
  writeFrameSpecPlanes stride sliceH pkt.height 0 0 pkt.planes

theorem writeFramePlanes_many_eq_spec (stride sliceHeight height : Nat) :
    ∀ (ps : List PlaneDesc) (idx cursor : Nat),
      writeFramePlanes true stride sliceHeight height idx cursor ps
        = writeFrameSpecPlanes stride sliceHeight height idx cursor ps := by
  intro ps
  induction ps with
  | nil => intro idx cursor; rfl
  | cons p rest ih =>
      intro idx cursor
      simp only [writeFramePlanes, writeFrameSpecPlanes, if_true, ih]

/-- C1: For every raw video frame written into a hardware input buffer, the
FrameWriter copies, for each plane, `min(source line size, stride >> widthDiv)`
bytes from each source row `y ∈ [0, frameHeight)` to destination row
`y >> heightDiv`, then advances the destination cursor by
`outputLineSize * (sliceHeight >> heightDiv)` before the next plane, where
`sliceHeight` is first clamped to at least the frame's actual height.  The
source shifts the stride only when the packet has more than one plane, so the
statement carries the hypothesis (true of every real pixel format) that a
single-plane packet's only plane has width subsampling 0. -/
theorem writeFrame_eq_spec (pkt : FramePacket) (stride sliceHeight : Nat)
    (hw : ∀ p ∈ pkt.planes, pkt.planes.length = 1 → p.widthDiv = 0) :
    writeFrame pkt stride sliceHeight = writeFrameSpec pkt stride sliceHeight := by
  obtain ⟨h, ps⟩ := pkt
  simp only [writeFrame, writeFrameSpec] at *
  match ps, hw with
  | [], _ => rfl
  | [p], hw =>
      have hp : p.widthDiv = 0 := hw p (by simp) (by simp)
      simp [writeFramePlanes, writeFrameSpecPlanes, hp, Nat.shiftRight_zero]
  | p :: q :: rest, _ =>
      have hlen : decide (1 < (p :: q :: rest).length) = true := by
        simp [List.length_cons]
      rw [hlen]
      exact writeFramePlanes_many_eq_spec _ _ _ _ _ _

/-- Witness for `writeFrame_eq_spec` at a concrete three-plane (yuv420p-like)
frame: width 4, height 4, stride 4, slice height 2 (clamped to 4). -/
theorem writeFrame_eq_spec_witness :
    (∀ p ∈ (FramePacket.mk 4 [⟨4, 0, 0⟩, ⟨2, 1, 1⟩, ⟨2, 1, 1⟩]).planes,
        (FramePacket.mk 4 [⟨4, 0, 0⟩, ⟨2, 1, 1⟩, ⟨2, 1, 1⟩]).planes.length = 1 →
          p.widthDiv = 0) ∧
      writeFrame ⟨4, [⟨4, 0, 0⟩, ⟨2, 1, 1⟩, ⟨2, 1, 1⟩]⟩ 4 2
        = writeFrameSpec ⟨4, [⟨4, 0, 0⟩, ⟨2, 1, 1⟩, ⟨2, 1, 1⟩]⟩ 4 2 :=
  ⟨by decide, writeFrame_eq_spec ⟨4, [⟨4, 0, 0⟩, ⟨2, 1, 1⟩, ⟨2, 1, 1⟩]⟩ 4 2 (by decide)⟩

/-- C2 counterexample: the source computes the key-frame interval with
truncating integer division, not rounding.  At `gopMillis = 1950`,
`fps = 30/1` the configured interval is `1950 * 30 / 1000 = 58`, while
`round(1950 * 30 / 1000) = round(58.5) = 59`. -/
theorem gopFrames_ne_round_at_1950 :
    (gopFrames 1950 30 1 : ℤ) ≠ gopFramesSpec 1950 30 1 := by
  have hcode : gopFrames 1950 30 1 = 58 := by decide
  have hspec : gopFramesSpec 1950 30 1 = 59 := by
    unfold gopFramesSpec
    rw [round_eq]
    norm_num
  rw [hcode, hspec]
  decide

/-- C2 amended: when the encoder session is started, the key-frame interval
configured on the hardware format equals `⌊gopMillis * fps / 1000⌋` frames
(truncating division, not rounding), clamped to at least 1; in particular
`gopMillis = 2000` with `fps = 30/1` yields 60, and `gopMillis = 0`
yields 1. -/
theorem gopFrames_floor_law (g n d : Nat) (hd : 0 < d) :
    (gopFrames g n d : ℤ) = max ⌊(g * n : ℚ) / (1000 * d)⌋ 1
      ∧ gopFrames 2000 30 1 = 60 ∧ gopFrames 0 30 1 = 1 := by
  refine ⟨?_, by decide, by decide⟩
  have hdq : (0 : ℚ) < (1000 * d : ℚ) := by
    have : (0 : ℚ) < (d : ℚ) := by exact_mod_cast hd
    nlinarith
  have h1 : ((g * n / (1000 * d) : ℕ) : ℤ)
      = ⌊((g * n : ℕ) : ℚ) / ((1000 * d : ℕ) : ℚ)⌋ := by
    rw [← Nat.floor_div_eq_div (α := ℚ) (g * n) (1000 * d)]
    rw [Int.natCast_floor_eq_floor]
    positivity
  unfold gopFrames
  push_cast [Nat.cast_max] at h1 ⊢
  rw [h1]

/-- Witness for `gopFrames_floor_law` at `g = 2000`, `n = 30`, `d = 1`. -/
theorem gopFrames_floor_law_witness :
    0 < 1
      ∧ ((gopFrames 2000 30 1 : ℤ) = max ⌊(2000 * 30 : ℚ) / (1000 * 1)⌋ 1
          ∧ gopFrames 2000 30 1 = 60 ∧ gopFrames 0 30 1 = 1) :=
  ⟨by decide, gopFrames_floor_law 2000 30 1 (by decide)⟩

/-- The `AMediaFormat` that `VideoEncoderNDKMediaElementPrivate::init` builds:
MIME type, bitrate, frame geometry, frame rate, computed stride (width rounded
up to even times the first plane's bits per pixel over 8), slice height (the
frame height) and the key-frame interval `gopFrames`. -/
structure MediaFormat where
  mime : String
  bitrate : Nat
  width : Nat
  height : Nat
  fpsNum : Nat
  fpsDen : Nat
  stride : Nat
  sliceHeight : Nat
  gop : Nat
  deriving DecidableEq, Repr

/-- Format construction in `init`: `stride` doubles the last column when the
width is odd, `sliceHeight` is the output height, `gop` is `gopFrames`. -/
def buildMediaFormat (mime : String) (bitrate width height fpsNum fpsDen
    bitsSize gopMillis : Nat) : MediaFormat :=
  { mime := mime
    bitrate := bitrate
    width := width
    height := height
    fpsNum := fpsNum
    fpsDen := fpsDen
    stride := if width % 2 = 1 then bitsSize * (width + 1) / 8 else bitsSize * width / 8
    sliceHeight := height
    gop := gopFrames gopMillis fpsNum fpsDen }

/-- Responses of the hardware codec provider during `init`: whether
`AMediaCodec_createEncoderByType`, `AMediaCodec_configure` and
`AMediaCodec_start` succeed. -/
structure EncoderEnv where
  createOk : Bool
  configureOk : Bool
  startOk : Bool
  deriving DecidableEq, Repr

/-- State of a `VideoEncoderNDKMediaElement` (public element state plus the
private fields `m_initialized`, `m_paused`, `m_codec`, the codec's
started-ness, `m_mediaFormat`, `m_encodedTimePts`) together with the inputs
`init` reads: input-caps validity, the configured codec name, bitrate, GOP in
milliseconds, the converter's output geometry/rate, the first plane's bits
per pixel, and whether the FPS-control child element exists. -/
structure EncoderElem where
  state : ElementState
  initialized : Bool
  paused : Bool
  codecPresent : Bool
  codecStarted : Bool
  mediaFormat : Option MediaFormat
  encodedTimePts : Int
  inputCapsValid : Bool
  codecName : String
  bitrate : Nat
  gopMillis : Nat
  width : Nat
  height : Nat
  fpsNum : Nat
  fpsDen : Nat
  bitsSize : Nat
  fpsControlPresent : Bool
  deriving DecidableEq, Repr

/-- `VideoEncoderNDKMediaElementPrivate::uninit`: a no-op when the session was
never initialized; otherwise the codec is drained, stopped and deleted, the
format released and the pause flag cleared. -/
def encUninit (e : EncoderElem) : EncoderElem :=
  if e.initialized then
    { e with initialized := false
             codecPresent := false
             codecStarted := false
             mediaFormat := none
             paused := false }
  else e

/-- `VideoEncoderNDKMediaElementPrivate::init`: tears any previous session
down, then fails early when the input caps are invalid, when the codec name
does not resolve to a MIME type, or when the hardware rejects creation,
configuration or start; only on full success are `m_encodedTimePts` reset and
`m_initialized` raised. -/
def encInit (e : EncoderElem) (env : EncoderEnv) : Bool × EncoderElem :=
  let e0 := encUninit e
  if !e0.inputCapsValid then (false, e0)
  else if mimeByName e0.codecName = "" then (false, e0)
  else if !env.createOk then (false, e0)
  else
    let e1 := { e0 with
                codecPresent := true
                mediaFormat := some (buildMediaFormat (mimeByName e0.codecName)
                  e0.bitrate e0.width e0.height e0.fpsNum e0.fpsDen
                  e0.bitsSize e0.gopMillis) }
    if !env.configureOk then (false, e1)
    else if !env.startOk then (false, e1)
    else (true, { e1 with
                  codecStarted := true
                  encodedTimePts := 0
                  initialized := true })

/-- `VideoEncoderNDKMediaElement::setState`: the nested switch over
current/requested state.  From `Null`, requesting `Paused` raises the pause
flag and falls through into the `Playing` branch, which runs `init` and on
failure clears the pause flag and reports `false` without touching the
element state. -/
def encSetState (e : EncoderElem) (env : EncoderEnv) (target : ElementState) :
    Bool × EncoderElem :=
  match e.state, target with
  | .null, .paused =>
      let ep := { e with paused := true }
      let r := encInit ep env
      if r.1 then (true, { r.2 with state := .paused })
      else (false, { r.2 with paused := false })
  | .null, .playing =>
      let r := encInit e env
      if r.1 then (true, { r.2 with state := .playing })
      else (false, { r.2 with paused := false })
  | .null, .null => (false, e)
  | .paused, .null => (true, { encUninit e with state := .null })
  | .paused, .playing => (true, { e with paused := false, state := .playing })
  | .paused, .paused => (false, e)
  | .playing, .null => (true, { encUninit e with state := .null })
  | .playing, .paused => (true, { e with paused := true, state := .paused })
  | .playing, .playing => (false, e)

/-- Observable actions of `VideoEncoderNDKMediaElement::iVideoStream`: query
the FPS-control discard decision, convert the frame, forward it to the
FPS-control element (which is what eventually drives `encodeFrame` and the
hardware). -/
inductive StreamAct where
  | discardQuery
  | convert
  | fpsForward
  deriving DecidableEq, Repr

/-- Collaborator responses during `iVideoStream`: the FPS-control discard
verdict and whether the converter produces a frame. -/
structure StreamEnv where
  discard : Bool
  convertOk : Bool
  deriving DecidableEq, Repr

/-- `VideoEncoderNDKMediaElement::iVideoStream`, as the list of collaborator
actions it performs plus the (unchanged) element state.  When the element is
paused, not initialized, or has no FPS-control child, it returns immediately
having done nothing. -/
def iVideoStreamEnc (e : EncoderElem) (senv : StreamEnv) :
    List StreamAct × EncoderElem :=
  if e.paused || !e.initialized || !e.fpsControlPresent then ([], e)
  else if senv.discard then ([.discardQuery], e)
  else if !senv.convertOk then ([.discardQuery, .convert], e)
  else ([.discardQuery, .convert, .fpsForward], e)

theorem encInit_fail (e : EncoderElem) (env : EncoderEnv)
    (hinit : e.initialized = false)
    (hfail : e.inputCapsValid = false ∨ mimeByName e.codecName = ""
      ∨ env.createOk = false ∨ env.configureOk = false ∨ env.startOk = false) :
    (encInit e env).1 = false
      ∧ (encInit e env).2.state = e.state
      ∧ (encInit e env).2.initialized = false
      ∧ (encInit e env).2.codecStarted = e.codecStarted
      ∧ (encInit e env).2.paused = e.paused := by
  have h0 : encUninit e = e := by simp [encUninit, hinit]
  unfold encInit
  simp only [h0]
  split_ifs with h1 h2 h3 h4 h5 <;> simp_all

/-- A concrete idle encoder element used by witnesses: state `Null`, nothing
initialized, valid input caps, codec `h264`. -/
def sampleEncoderElem : EncoderElem :=
  { state := .null
    initialized := false
    paused := false
    codecPresent := false
    codecStarted := false
    mediaFormat := none
    encodedTimePts := 0
    inputCapsValid := true
    codecName := "h264"
    bitrate := 1500000
    gopMillis := 2000
    width := 640
    height := 480
    fpsNum := 30
    fpsDen := 1
    bitsSize := 12
    fpsControlPresent := true }

/-- C4: If the encoder session's start fails for any of the listed reasons
(absent input shape, codec name that does not resolve to a MIME type,
hardware rejecting creation, configuration or start), `setState` returns
failure, the session stays in the `Null`/Idle state with the pause flag
cleared, no hardware codec is left started, and subsequent `encode()` calls
(`iVideoStream`) are complete no-ops. -/
theorem encStart_failure_leaves_idle (e : EncoderElem) (env : EncoderEnv)
    (target : ElementState)
    (hstate : e.state = .null) (hinit : e.initialized = false)
    (hstarted : e.codecStarted = false) (htgt : target ≠ .null)
    (hfail : e.inputCapsValid = false ∨ mimeByName e.codecName = ""
      ∨ env.createOk = false ∨ env.configureOk = false ∨ env.startOk = false) :
    (encSetState e env target).1 = false
      ∧ (encSetState e env target).2.state = .null
      ∧ (encSetState e env target).2.initialized = false
      ∧ (encSetState e env target).2.codecStarted = false
      ∧ (encSetState e env target).2.paused = false
      ∧ ∀ senv, iVideoStreamEnc (encSetState e env target).2 senv
          = ([], (encSetState e env target).2) := by
  obtain ⟨st, ini, pa, cp, cs, mf, etp, icv, cn, br, gm, w, h, fn, fd, bs, fcp⟩ := e
  simp only at hstate hinit hstarted hfail
  subst hstate hinit hstarted
  cases target with
  | null => exact absurd rfl htgt
  | paused =>
      have hif := encInit_fail
        ⟨.null, false, true, cp, false, mf, etp, icv, cn, br, gm, w, h, fn, fd, bs, fcp⟩
        env rfl hfail
      simp only [encSetState]
      rw [hif.1]
      simp only [Bool.false_eq_true, if_false]
      refine ⟨by trivial, hif.2.1, hif.2.2.1, hif.2.2.2.1, by trivial, ?_⟩
      intro senv
      simp [iVideoStreamEnc, hif.2.2.1]
  | playing =>
      have hif := encInit_fail
        ⟨.null, false, pa, cp, false, mf, etp, icv, cn, br, gm, w, h, fn, fd, bs, fcp⟩
        env rfl hfail
      simp only [encSetState]
      rw [hif.1]
      simp only [Bool.false_eq_true, if_false]
      refine ⟨by trivial, hif.2.1, hif.2.2.1, hif.2.2.2.1, by trivial, ?_⟩
      intro senv
      simp [iVideoStreamEnc, hif.2.2.1]

/-- Witness for `encStart_failure_leaves_idle`: the hardware refuses to
create an encoder (`createOk = false`) and start to `Playing` is requested
from the idle sample element. -/
theorem encStart_failure_leaves_idle_witness :
    (sampleEncoderElem.state = .null ∧ sampleEncoderElem.initialized = false
        ∧ sampleEncoderElem.codecStarted = false
        ∧ (ElementState.playing ≠ ElementState.null)
        ∧ (sampleEncoderElem.inputCapsValid = false
            ∨ mimeByName sampleEncoderElem.codecName = ""
            ∨ (EncoderEnv.mk false true true).createOk = false
            ∨ (EncoderEnv.mk false true true).configureOk = false
            ∨ (EncoderEnv.mk false true true).startOk = false))
      ∧ ((encSetState sampleEncoderElem (EncoderEnv.mk false true true) .playing).1 = false
          ∧ (encSetState sampleEncoderElem (EncoderEnv.mk false true true) .playing).2.state = .null
          ∧ (encSetState sampleEncoderElem (EncoderEnv.mk false true true) .playing).2.initialized = false
          ∧ (encSetState sampleEncoderElem (EncoderEnv.mk false true true) .playing).2.codecStarted = false
          ∧ (encSetState sampleEncoderElem (EncoderEnv.mk false true true) .playing).2.paused = false
          ∧ ∀ senv, iVideoStreamEnc (encSetState sampleEncoderElem (EncoderEnv.mk false true true) .playing).2 senv
              = ([], (encSetState sampleEncoderElem (EncoderEnv.mk false true true) .playing).2)) :=
  ⟨⟨by decide, by decide, by decide, by decide, by decide⟩,
    encStart_failure_leaves_idle sampleEncoderElem (EncoderEnv.mk false true true)
      .playing (by decide) (by decide) (by decide) (by decide) (by decide)⟩

/-- C8: For every input frame delivered while the encoder session is not
initialized (never started, or torn down by `stop`), `iVideoStream` is a
no-op: no collaborator or hardware action happens, no packet is emitted, and
the session state is unchanged. -/
theorem iVideoStream_idle_noop (e : EncoderElem) (senv : StreamEnv)
    (h : e.initialized = false) :
    iVideoStreamEnc e senv = ([], e) := by
  simp [iVideoStreamEnc, h]

/-- Witness for `iVideoStream_idle_noop` on the idle sample element. -/
theorem iVideoStream_idle_noop_witness :
    sampleEncoderElem.initialized = false
      ∧ iVideoStreamEnc sampleEncoderElem (StreamEnv.mk false true)
          = ([], sampleEncoderElem) :=
  ⟨by decide, iVideoStream_idle_noop sampleEncoderElem (StreamEnv.mk false true) (by decide)⟩

/-- Caps type selector mirroring `AkCaps::CapsType` as used by
`Recording::setBitrate` (audio, video, and the default branch). -/
inductive CapsType where
  | audio
  | video
  | any
  deriving DecidableEq, Repr

/-- State of the `Recording` orchestrator (`RecordingPrivate`) as the verified
operations observe it: public element state, pause flag, `m_isRecording`,
which children exist (`m_muxer`, `m_videoEncoder`, `m_audioEncoder`), each
encoder's final `encodedTimePts` with the stream rate used for the logged
duration, and the stored bitrates. -/
structure RecOrch where
  state : ElementState
  pause : Bool
  isRecording : Bool
  hasMuxer : Bool
  hasVideoEncoder : Bool
  hasAudioEncoder : Bool
  videoEncodedTimePts : Int
  videoFpsNum : Nat
  videoFpsDen : Nat
  audioEncodedTimePts : Int
  audioRate : Nat
  audioBitrate : Int
  videoBitrate : Int
  deriving DecidableEq, Repr

/-- Calls `RecordingPrivate::uninit` makes on its children, in order. -/
inductive RecEvent where
  | stopVideoEncoder
  | stopAudioEncoder
  | setAudioDuration (d : Int)
  | setVideoDuration (d : Int)
  | stopMuxer
  deriving DecidableEq, Repr

/-- `RecordingPrivate::uninit`: a no-op unless a recording is active.  The
video encoder is stopped first and its `encodedTimePts` captured, then the
audio encoder likewise; if a muxer exists, each captured duration is
registered with it only when strictly positive (audio first, as in the
source), and the muxer is stopped last.  The values divided by the stream
rates (`videoTime`, `audioTime`) are only logged, never registered. -/
def recUninit (s : RecOrch) : List RecEvent × RecOrch :=
  if !s.isRecording then ([], s)
  else
    let vr := if s.hasVideoEncoder
      then ([RecEvent.stopVideoEncoder], s.videoEncodedTimePts)
      else ([], 0)
    let ar := if s.hasAudioEncoder
      then ([RecEvent.stopAudioEncoder], s.audioEncodedTimePts)
      else ([], 0)
    let mEv := if s.hasMuxer
      then (if 0 < ar.2 then [RecEvent.setAudioDuration ar.2] else [])
        ++ (if 0 < vr.2 then [RecEvent.setVideoDuration vr.2] else [])
        ++ [RecEvent.stopMuxer]
      else []
    (vr.1 ++ ar.1 ++ mEv, { s with isRecording := false })

/-- Environment of `RecordingPrivate::init`: whether creating the output
directory (`QDir().mkpath`) succeeds. -/
structure RecEnv where
  mkpathOk : Bool
  deriving DecidableEq, Repr

/-- `RecordingPrivate::init`: fails (leaving the orchestrator untouched) when
the output directory cannot be created, when no muxer is selected, or when no
video encoder is selected; otherwise the start sequence runs and
`m_isRecording` is raised. -/
def recInit (s : RecOrch) (env : RecEnv) : Bool × RecOrch :=
  if !env.mkpathOk then (false, s)
  else if !s.hasMuxer then (false, s)
  else if !s.hasVideoEncoder then (false, s)
  else (true, { s with isRecording := true })

/-- `Recording::setState`: the nested switch over current/requested state.
`Null → Playing` runs `init` and reports failure without any state change
when it fails; `Null → Paused` merely raises the pause flag; transitions to
`Null` run `uninit` (whose child calls are returned) and clear the pause
flag. -/
def recSetState (s : RecOrch) (env : RecEnv) (target : ElementState) :
    Bool × RecOrch × List RecEvent :=
  match s.state, target with
  | .null, .paused => (true, { s with pause := true, state := .paused }, [])
  | .null, .playing =>
      let r := recInit s env
      if r.1 then (true, { r.2 with state := .playing }, [])
      else (false, r.2, [])
  | .null, .null => (false, s, [])
  | .paused, .null =>
      let u := recUninit s
      (true, { u.2 with pause := false, state := .null }, u.1)
  | .paused, .playing => (true, { s with pause := false, state := .playing }, [])
  | .paused, .paused => (false, s, [])
  | .playing, .null =>
      let u := recUninit s
      (true, { u.2 with pause := false, state := .null }, u.1)
  | .playing, .paused => (true, { s with pause := true, state := .paused }, [])
  | .playing, .playing => (false, s, [])

/-- Signals emitted / settings persisted by `Recording::setBitrate`. -/
inductive CfgEvent where
  | bitrateChanged (t : CapsType) (b : Int)
  | saveBitrate (t : CapsType) (b : Int)
  deriving DecidableEq, Repr

/-- `Recording::setBitrate`: the audio branch compares against the stored
audio bitrate and, when different, stores, emits `bitrateChanged` and
persists — without ever consulting `m_audioEncoder`; the video branch first
returns when `m_videoEncoder` is null, and only then applies the same
compare/store/emit/persist steps. -/
def setBitrate (s : RecOrch) (t : CapsType) (b : Int) : RecOrch × List CfgEvent :=
  match t with
  | .audio =>
      if s.audioBitrate = b then (s, [])
      else ({ s with audioBitrate := b },
            [.bitrateChanged .audio b, .saveBitrate .audio b])
  | .video =>
      if !s.hasVideoEncoder then (s, [])
      else if s.videoBitrate = b then (s, [])
      else ({ s with videoBitrate := b },
            [.bitrateChanged .video b, .saveBitrate .video b])
  | .any => (s, [])

/-- A recording orchestrator that just recorded 60 video ticks at 30 fps,
video-only (no audio encoder), muxer present. -/
def recVideoOnly : RecOrch :=
  { state := .playing
    pause := false
    isRecording := true
    hasMuxer := true
    hasVideoEncoder := true
    hasAudioEncoder := false
    videoEncodedTimePts := 60
    videoFpsNum := 30
    videoFpsDen := 1
    audioEncodedTimePts := 0
    audioRate := 48000
    audioBitrate := 128000
    videoBitrate := 1500000 }

/-- C3 counterexample: at `recVideoOnly` the duration registered with the
muxer is the raw encoded time 60 (ticks), not the divided-by-rate value
`60 / (30/1) = 2` that the claim describes; the divided value is only
logged. -/
theorem recUninit_registers_raw_pts :
    (recUninit recVideoOnly).1
        = [RecEvent.stopVideoEncoder, RecEvent.setVideoDuration 60,
           RecEvent.stopMuxer]
      ∧ (60 : ℚ) / ((30 : ℚ) / 1) = 2
      ∧ RecEvent.setVideoDuration 2 ∉ (recUninit recVideoOnly).1 :=
  ⟨by decide, by norm_num, by decide⟩

/-- C3 amended: during the orchestrator's stop sequence the video encoder is
stopped first, then the audio encoder; each stream's final duration — the
encoder's last encoded-time value itself, in that stream's own ticks (the
value divided by the stream rate is computed only for the log message) — is
registered with the muxer only if it is positive (audio before video, as in
the source); the muxer is stopped last, and the recording flag is cleared. -/
theorem recUninit_stop_sequence (s : RecOrch)
    (hrec : s.isRecording = true) (hv : s.hasVideoEncoder = true)
    (ha : s.hasAudioEncoder = true) (hm : s.hasMuxer = true) :
    (recUninit s).1
        = [RecEvent.stopVideoEncoder, RecEvent.stopAudioEncoder]
          ++ (if 0 < s.audioEncodedTimePts
              then [RecEvent.setAudioDuration s.audioEncodedTimePts] else [])
          ++ (if 0 < s.videoEncodedTimePts
              then [RecEvent.setVideoDuration s.videoEncodedTimePts] else [])
          ++ [RecEvent.stopMuxer]
      ∧ (recUninit s).2 = { s with isRecording := false } := by
  constructor <;> simp [recUninit, hrec, hv, ha, hm]

/-- An orchestrator with both encoders and the muxer present, mid-recording. -/
def recFull : RecOrch :=
  { recVideoOnly with
    hasAudioEncoder := true
    audioEncodedTimePts := 96000 }

/-- Witness for `recUninit_stop_sequence` at `recFull`. -/
theorem recUninit_stop_sequence_witness :
    (recFull.isRecording = true ∧ recFull.hasVideoEncoder = true
        ∧ recFull.hasAudioEncoder = true ∧ recFull.hasMuxer = true)
      ∧ ((recUninit recFull).1
            = [RecEvent.stopVideoEncoder, RecEvent.stopAudioEncoder]
              ++ (if 0 < recFull.audioEncodedTimePts
                  then [RecEvent.setAudioDuration recFull.audioEncodedTimePts] else [])
              ++ (if 0 < recFull.videoEncodedTimePts
                  then [RecEvent.setVideoDuration recFull.videoEncodedTimePts] else [])
              ++ [RecEvent.stopMuxer]
          ∧ (recUninit recFull).2 = { recFull with isRecording := false }) :=
  ⟨⟨rfl, rfl, rfl, rfl⟩, recUninit_stop_sequence recFull rfl rfl rfl rfl⟩

/-- C5: If the orchestrator's start (`Null → Playing`) is requested while no
muxer or no video encoder is selected, the start is aborted, the call returns
failure, no child calls happen, and the orchestrator's state record is
completely unchanged, so start can be retried. -/
theorem recStart_missing_aborts (s : RecOrch) (env : RecEnv)
    (hstate : s.state = .null)
    (hmiss : s.hasMuxer = false ∨ s.hasVideoEncoder = false) :
    recSetState s env .playing = (false, s, []) := by
  have hini : recInit s env = (false, s) := by
    rcases hmiss with h | h <;> by_cases hp : env.mkpathOk <;> simp [recInit, h, hp]
  simp [recSetState, hstate, hini]

/-- An idle orchestrator with no muxer selected. -/
def recNoMuxer : RecOrch :=
  { recVideoOnly with
    state := .null
    isRecording := false
    hasMuxer := false }

/-- Witness for `recStart_missing_aborts` at `recNoMuxer`. -/
theorem recStart_missing_aborts_witness :
    (recNoMuxer.state = .null
        ∧ (recNoMuxer.hasMuxer = false ∨ recNoMuxer.hasVideoEncoder = false))
      ∧ recSetState recNoMuxer (RecEnv.mk true) .playing = (false, recNoMuxer, []) :=
  ⟨⟨rfl, Or.inl rfl⟩,
    recStart_missing_aborts recNoMuxer (RecEnv.mk true) rfl (Or.inl rfl)⟩

/-- C10: Setting the video bitrate is a complete no-op (state unchanged, no
signal, nothing persisted) whenever no video encoder is selected, whereas
setting the audio bitrate to a new value stores it, emits `bitrateChanged`
and persists it — the audio branch never consults the audio encoder at all,
so this holds also when no audio encoder is selected. -/
theorem setBitrate_video_guarded_audio_not (s : RecOrch) (b : Int)
    (hv : s.hasVideoEncoder = false) (hab : s.audioBitrate ≠ b) :
    setBitrate s .video b = (s, [])
      ∧ setBitrate s .audio b
          = ({ s with audioBitrate := b },
             [CfgEvent.bitrateChanged .audio b, CfgEvent.saveBitrate .audio b]) := by
  constructor
  · simp [setBitrate, hv]
  · simp [setBitrate, hab]

/-- An orchestrator with neither encoder selected. -/
def recNoEncoders : RecOrch :=
  { recVideoOnly with
    state := .null
    isRecording := false
    hasVideoEncoder := false
    hasAudioEncoder := false }

/-- Witness for `setBitrate_video_guarded_audio_not` at `recNoEncoders` with
a new bitrate of 96000. -/
theorem setBitrate_video_guarded_audio_not_witness :
    (recNoEncoders.hasVideoEncoder = false ∧ recNoEncoders.audioBitrate ≠ 96000)
      ∧ (setBitrate recNoEncoders .video 96000 = (recNoEncoders, [])
          ∧ setBitrate recNoEncoders .audio 96000
              = ({ recNoEncoders with audioBitrate := 96000 },
                 [CfgEvent.bitrateChanged .audio 96000,
                  CfgEvent.saveBitrate .audio 96000])) :=
  ⟨⟨rfl, by decide⟩,
    setBitrate_video_guarded_audio_not recNoEncoders 96000 rfl (by decide)⟩

/-- `qstrncpy(dst, src, 1024)` into the cache's fixed `char[1024]` slot: at
most 1023 characters of the MIME type are stored (plus the terminator). -/
def storedMime (s : String) : String :=
  String.mk (s.data.take 1023)

/-- `VideoEncoderNDKMediaElementPrivate::isAvailable`: the static cache is a
list of (stored MIME type, availability) pairs scanned linearly; on a hit the
cached flag is returned and the probe is skipped, on a miss the hardware
probe result (`probe` here stands for whether
`AMediaCodec_createEncoderByType` returns a codec on this attempt) is
appended under the truncated MIME type and returned.  The fixed 32-entry
capacity of the real array is not modelled (exceeding it is undefined
behavior in the source). -/
def isAvailable (cache : List (String × Bool)) (mime : String) (probe : Bool) :
    Bool × List (String × Bool) :=
  match cache.find? (fun e => e.1 = mime) with
  | some e => (e.2, cache)
  | none => (probe, cache ++ [(storedMime mime, probe)])

theorem storedMime_of_short (mime : String) (h : mime.length ≤ 1023) :
    storedMime mime = mime := by
  unfold storedMime
  rw [List.take_of_length_le h]

set_option maxRecDepth 40000 in
/-- C6 counterexample: memoization fails for a MIME type of 1024 characters.
The first call stores only the first 1023 characters, so the second call's
linear scan never matches, re-probes, and can return a different answer. -/
theorem isAvailable_not_memoized_at_1024 :
    (isAvailable [] (String.mk (List.replicate 1024 'a')) true).1 = true
      ∧ (isAvailable
            (isAvailable [] (String.mk (List.replicate 1024 'a')) true).2
            (String.mk (List.replicate 1024 'a')) false).1 = false := by
  constructor <;> rfl

/-- C6 amended: for every MIME type of at most 1023 characters (one that fits
the cache's fixed `char[1024]` slot; within the array's 32-entry capacity,
which the model does not bound), `isAvailable` is memoized for the process
lifetime: after any first call, a second call with the same MIME type returns
the first call's result whatever the new probe outcome would be (no re-probe)
and leaves the cache unchanged. -/
theorem isAvailable_memoized (cache : List (String × Bool)) (mime : String)
    (probe1 probe2 : Bool) (h : mime.length ≤ 1023) :
    (isAvailable (isAvailable cache mime probe1).2 mime probe2).1
        = (isAvailable cache mime probe1).1
      ∧ (isAvailable (isAvailable cache mime probe1).2 mime probe2).2
          = (isAvailable cache mime probe1).2 := by
  unfold isAvailable
  cases hfind : cache.find? (fun e => e.1 = mime) with
  | some e => simp [hfind]
  | none =>
      have hstored : storedMime mime = mime := storedMime_of_short mime h
      have happ : (cache ++ [(storedMime mime, probe1)]).find?
          (fun e => e.1 = mime) = some (storedMime mime, probe1) := by
        rw [List.find?_append, hfind]
        simp [hstored]
      simp [hfind, happ]

/-- Witness for `isAvailable_memoized`: the `h264` MIME type, probed as
available first and unavailable second, on an empty cache. -/
theorem isAvailable_memoized_witness :
    ("video/avc".length ≤ 1023)
      ∧ ((isAvailable (isAvailable [] "video/avc" true).2 "video/avc" false).1
            = (isAvailable [] "video/avc" true).1
          ∧ (isAvailable (isAvailable [] "video/avc" true).2 "video/avc" false).2
              = (isAvailable [] "video/avc" true).2) :=
  ⟨by decide, isAvailable_memoized [] "video/avc" true false (by decide)⟩

/-- One hardware output buffer as dequeued by `AMediaCodec_dequeueOutputBuffer`:
its buffer index, `AMediaCodecBufferInfo` flags, payload size and
presentation timestamp in microseconds. -/
structure OutBuf where
  idx : Nat
  flags : Nat
  size : Nat
  ptsUs : Nat
  deriving DecidableEq, Repr

/-- The `AkCompressedVideoPacket` assembled by
`VideoEncoderNDKMediaElementPrivate::sendFrame`. -/
structure CPacket where
  size : Nat
  keyFrame : Bool
  pts : Int
  dts : Int
  duration : Int
  timeBaseNum : Nat
  timeBaseDen : Nat
  id : Int
  index : Int
  deriving DecidableEq, Repr

/-- `VideoEncoderNDKMediaElementPrivate::sendFrame`: key-frame flag from bit 0
of the buffer flags, presentation time
`qRound64(ptsUs * fps.value() / 1e6)` (exact rational rounding of
`ptsUs * num / (1e6 * den)`), decoding time equal to it, duration one tick,
time base the inverted frame rate. -/
def sendFrame (fpsNum fpsDen : Nat) (id index : Int) (b : OutBuf) : CPacket :=
  let pts : Int := rround (b.ptsUs * fpsNum) (1000000 * fpsDen)
  { size := b.size
    keyFrame := (b.flags &&& 1) != 0
    pts := pts
    dts := pts
    duration := 1
    timeBaseNum := fpsDen
    timeBaseDen := fpsNum
    id := id
    index := index }

/-- Hardware codec calls made by `encodeFrame`, in order. -/
inductive HwCall where
  | dequeueInput
  | getInput (idx : Nat)
  | queueInput (idx : Nat) (size : Nat) (ptsUs : Nat)
  | dequeueOutput
  | getOutput (idx : Nat)
  | releaseOutput (idx : Nat) (render : Bool)
  deriving DecidableEq, Repr

/-- Whether a hardware call submits an input buffer to the encoder. -/
def isQueueInput : HwCall → Bool
  | .queueInput _ _ _ => true
  | _ => false

/-- The output-drain loop shared by `encodeFrame` (and `uninit`): dequeue
until no buffer is ready (the end of `bufs` stands for the timed-out
dequeue); buffers flagged `AMEDIACODEC_BUFFER_FLAG_CODEC_CONFIG` (bit 1) are
skipped without being fetched or emitted; every other buffer is fetched,
converted by `sendFrame`, emitted and released (rendered iff its size is
positive). -/
def drainOutputs (fpsNum fpsDen : Nat) (id index : Int) :
    List OutBuf → List HwCall × List CPacket
  | [] => ([.dequeueOutput], [])
  | b :: rest =>
      let r := drainOutputs fpsNum fpsDen id index rest
      if (b.flags &&& 2) != 0 then (.dequeueOutput :: r.1, r.2)
      else (.dequeueOutput :: .getOutput b.idx
              :: .releaseOutput b.idx (decide (0 < b.size)) :: r.1,
            sendFrame fpsNum fpsDen id index b :: r.2)

/-- The raw video frame delivered to `encodeFrame` (nonnegative timestamps,
as produced by the FPS-control element). -/
structure SrcFrame where
  pts : Nat
  duration : Nat
  timeBaseNum : Nat
  timeBaseDen : Nat
  id : Int
  index : Int
  deriving DecidableEq, Repr

/-- Hardware responses during one `encodeFrame` cycle: the input-buffer index
granted by `AMediaCodec_dequeueInputBuffer` within the 3000-unit timeout
(`none` models the timed-out wait), that buffer's size, and the output
buffers that become ready before an output dequeue times out. -/
structure EncodeEnv where
  inputBuffer : Option Nat
  inputBufferSize : Nat
  outputs : List OutBuf
  deriving DecidableEq, Repr

/-- `VideoEncoderNDKMediaElementPrivate::encodeFrame`: records the frame's
id/index, tries to dequeue an input buffer — on success writes the frame and
queues it with presentation time `qRound64(1e6 * pts * timeBase.value())`,
on timeout simply drops the pixel data — then drains ready output buffers,
and finally sets `m_encodedTimePts` to `pts + duration` unconditionally. -/
def encodeFrame (e : EncoderElem) (env : EncodeEnv) (src : SrcFrame) :
    EncoderElem × List HwCall × List CPacket :=
  let inputCalls :=
    match env.inputBuffer with
    | some idx =>
        let ptsUs := rround (1000000 * src.pts * src.timeBaseNum) src.timeBaseDen
        [HwCall.dequeueInput, .getInput idx,
         .queueInput idx env.inputBufferSize ptsUs]
    | none => [HwCall.dequeueInput]
  let r := drainOutputs e.fpsNum e.fpsDen src.id src.index env.outputs
  ({ e with encodedTimePts := ((src.pts + src.duration : Nat) : Int) },
   inputCalls ++ r.1, r.2)

theorem drainOutputs_no_queueInput (fpsNum fpsDen : Nat) (id index : Int)
    (bufs : List OutBuf) :
    ∀ c ∈ (drainOutputs fpsNum fpsDen id index bufs).1, isQueueInput c = false := by
  induction bufs with
  | nil =>
      intro c hc
      simp only [drainOutputs, List.mem_singleton] at hc
      subst hc
      rfl
  | cons b rest ih =>
      intro c hc
      simp only [drainOutputs] at hc
      split at hc <;> simp only [List.mem_cons] at hc <;>
        rcases hc with h | h
      · subst h; rfl
      · exact ih c h
      · subst h; rfl
      · rcases h with h | h
        · subst h; rfl
        · rcases h with h | h
          · subst h; rfl
          · exact ih c h

/-- C9: after `encodeFrame` processes an input frame whose bounded wait for
an input buffer slot timed out (so the pixel data was dropped and nothing was
queued to the hardware), `m_encodedTimePts` is still set to the frame's
`pts + duration`: the counter tracks frames delivered to the session, not
frames accepted by the encoder. -/
theorem encodeFrame_timeout_still_advances (e : EncoderElem) (env : EncodeEnv)
    (src : SrcFrame) (h : env.inputBuffer = none) :
    (encodeFrame e env src).1.encodedTimePts = ((src.pts + src.duration : Nat) : Int)
      ∧ ∀ c ∈ (encodeFrame e env src).2.1, isQueueInput c = false := by
  refine ⟨rfl, ?_⟩
  intro c hc
  simp only [encodeFrame, h, List.mem_append, List.mem_singleton] at hc
  rcases hc with h1 | h1
  · subst h1; rfl
  · exact drainOutputs_no_queueInput _ _ _ _ _ c h1

/-- Witness for `encodeFrame_timeout_still_advances`: the sample element, a
timed-out input dequeue with one pending non-config output buffer, and a
frame at pts 90, duration 3000, time base 1/90000. -/
theorem encodeFrame_timeout_still_advances_witness :
    ((EncodeEnv.mk none 0 [OutBuf.mk 0 0 100 1000]).inputBuffer = none)
      ∧ ((encodeFrame sampleEncoderElem (EncodeEnv.mk none 0 [OutBuf.mk 0 0 100 1000])
            (SrcFrame.mk 90 3000 1 90000 7 0)).1.encodedTimePts
            = ((90 + 3000 : Nat) : Int)
          ∧ ∀ c ∈ (encodeFrame sampleEncoderElem
                (EncodeEnv.mk none 0 [OutBuf.mk 0 0 100 1000])
                (SrcFrame.mk 90 3000 1 90000 7 0)).2.1, isQueueInput c = false) :=
  ⟨rfl, encodeFrame_timeout_still_advances sampleEncoderElem
    (EncodeEnv.mk none 0 [OutBuf.mk 0 0 100 1000])
    (SrcFrame.mk 90 3000 1 90000 7 0) rfl⟩

theorem sendFrame_pts_round (n d : Nat) (hd : 0 < d) (id ix : Int) (b : OutBuf) :
    (sendFrame n d id ix b).pts
      = round ((b.ptsUs : ℚ) * ((n : ℚ) / (d : ℚ)) / 1000000) := by
  have hpos : 0 < 1000000 * d := by positivity
  have hr := rround_eq_round (b.ptsUs * n) (1000000 * d) hpos
  have hdq : (d : ℚ) ≠ 0 := by
    exact_mod_cast hd.ne'
  have harg : (((b.ptsUs * n : Nat) : ℚ)) / (((1000000 * d : Nat) : ℚ))
      = (b.ptsUs : ℚ) * ((n : ℚ) / (d : ℚ)) / 1000000 := by
    push_cast
    field_simp
    left
    ring
  calc (sendFrame n d id ix b).pts
      = ((rround (b.ptsUs * n) (1000000 * d) : Nat) : ℤ) := rfl
    _ = round (((b.ptsUs * n : Nat) : ℚ) / ((1000000 * d : Nat) : ℚ)) := hr
    _ = round ((b.ptsUs : ℚ) * ((n : ℚ) / (d : ℚ)) / 1000000) := by rw [harg]

theorem drainOutputs_packets_eq_map (n d : Nat) (id ix : Int) :
    ∀ bufs : List OutBuf,
      (drainOutputs n d id ix bufs).2
        = (bufs.filter (fun b => b.flags &&& 2 == 0)).map (sendFrame n d id ix) := by
  intro bufs
  induction bufs with
  | nil => rfl
  | cons b rest ih =>
      cases h : (b.flags &&& 2 != 0) with
      | true =>
          have h0 : (b.flags &&& 2 == 0) = false := by
            simpa [bne] using h
          simp [drainOutputs, List.filter_cons, h, h0, ih]
      | false =>
          have h0 : (b.flags &&& 2 == 0) = true := by
            simpa [bne] using h
          simp [drainOutputs, List.filter_cons, h, h0, ih]

/-- C7: the output packets emitted by an `encodeFrame` cycle are exactly
`sendFrame` applied, in order, to the non-configuration hardware output
buffers that were dequeued, so each packet is bound to its own source
buffer; and for every hardware buffer the packet `sendFrame` builds from it
has presentation time
`round(hardwareTimestampMicroseconds * outputFrameRate / 1e6)` computed from
that same buffer's timestamp, decoding time equal to that presentation time,
and duration fixed at 1 tick in the stream's own time base (the inverted
output frame rate). -/
theorem encodeFrame_packet_timestamps (e : EncoderElem) (env : EncodeEnv)
    (src : SrcFrame) (hd : 0 < e.fpsDen) :
    (encodeFrame e env src).2.2
        = (env.outputs.filter (fun b => b.flags &&& 2 == 0)).map
            (sendFrame e.fpsNum e.fpsDen src.id src.index)
      ∧ ∀ b : OutBuf,
          (sendFrame e.fpsNum e.fpsDen src.id src.index b).pts
              = round ((b.ptsUs : ℚ)
                  * ((e.fpsNum : ℚ) / (e.fpsDen : ℚ)) / 1000000)
            ∧ (sendFrame e.fpsNum e.fpsDen src.id src.index b).dts
                = (sendFrame e.fpsNum e.fpsDen src.id src.index b).pts
            ∧ (sendFrame e.fpsNum e.fpsDen src.id src.index b).duration = 1
            ∧ (sendFrame e.fpsNum e.fpsDen src.id src.index b).timeBaseNum = e.fpsDen
            ∧ (sendFrame e.fpsNum e.fpsDen src.id src.index b).timeBaseDen = e.fpsNum := by
  refine ⟨drainOutputs_packets_eq_map e.fpsNum e.fpsDen src.id src.index env.outputs, ?_⟩
  intro b
  exact ⟨sendFrame_pts_round e.fpsNum e.fpsDen hd src.id src.index b, rfl, rfl, rfl, rfl⟩

/-- Witness for `encodeFrame_packet_timestamps`: the sample element (30/1
fps), an accepted input buffer, and two output buffers — one configuration
buffer and one 100-byte frame stamped 1000000 µs. -/
theorem encodeFrame_packet_timestamps_witness :
    (0 < sampleEncoderElem.fpsDen)
      ∧ ((encodeFrame sampleEncoderElem
            (EncodeEnv.mk (some 3) 4096 [OutBuf.mk 0 2 10 0, OutBuf.mk 1 1 100 1000000])
            (SrcFrame.mk 90 3000 1 90000 7 0)).2.2
            = ((EncodeEnv.mk (some 3) 4096
                  [OutBuf.mk 0 2 10 0, OutBuf.mk 1 1 100 1000000]).outputs.filter
                    (fun b => b.flags &&& 2 == 0)).map
                (sendFrame sampleEncoderElem.fpsNum sampleEncoderElem.fpsDen 7 0)
          ∧ ∀ b : OutBuf,
              (sendFrame sampleEncoderElem.fpsNum sampleEncoderElem.fpsDen 7 0 b).pts
                  = round ((b.ptsUs : ℚ)
                      * ((sampleEncoderElem.fpsNum : ℚ)
                          / (sampleEncoderElem.fpsDen : ℚ)) / 1000000)
                ∧ (sendFrame sampleEncoderElem.fpsNum sampleEncoderElem.fpsDen 7 0 b).dts
                    = (sendFrame sampleEncoderElem.fpsNum sampleEncoderElem.fpsDen 7 0 b).pts
                ∧ (sendFrame sampleEncoderElem.fpsNum sampleEncoderElem.fpsDen 7 0 b).duration = 1
                ∧ (sendFrame sampleEncoderElem.fpsNum sampleEncoderElem.fpsDen 7 0 b).timeBaseNum
                    = sampleEncoderElem.fpsDen
                ∧ (sendFrame sampleEncoderElem.fpsNum sampleEncoderElem.fpsDen 7 0 b).timeBaseDen
                    = sampleEncoderElem.fpsNum) :=
  ⟨by decide, encodeFrame_packet_timestamps sampleEncoderElem
    (EncodeEnv.mk (some 3) 4096 [OutBuf.mk 0 2 10 0, OutBuf.mk 1 1 100 1000000])
    (SrcFrame.mk 90 3000 1 90000 7 0) (by decide)⟩

end Webcamoid
